import Mathlib

/-!
Verification development for the go-mail-middleware repository
(middlewares `dkim`, `openpgp`, `subject_capitalize` for the go-mail
message-composition library).

The Go sources are shallowly embedded: pure helper functions become Lean
functions over `List Char` / `String`; the `mail.Msg` object becomes an
explicit record that the handlers transform; calls into external libraries
(the DKIM signer, the OpenPGP helpers, the locale-aware title caser) are
parameters of the embedded functions, mirroring the delegation in the code;
Go `(value, error)` returns become `Except` or `value × Option error`.
-/

namespace GoMailMw

/-- A single line of a rendered mail message, as a list of characters.
Lines produced by `bufio.Reader.ReadString('\n')` keep their trailing
newline character. -/
abbrev Line := List Char

/-- `mail.SingleNewLine` from go-mail: the CRLF sequence. -/
def crlf : Line := ['\r', '\n']

/-- Helper for `bufLines`: splits a character stream into the successive
results of `ReadString('\n')` — each chunk ends with `'\n'` except a final
unterminated chunk; a final empty read (EOF) produces no chunk. -/
def splitLinesAux (acc : List Char) : List Char → List Line
  | [] => if acc.isEmpty then [] else [acc.reverse]
  | c :: rest =>
    if c = '\n' then (acc.reverse ++ ['\n']) :: splitLinesAux [] rest
    else splitLinesAux (c :: acc) rest

/-- The sequence of successful `ReadString('\n')` results on a buffer
holding the string `s`. -/
def bufLines (s : String) : List Line := splitLinesAux [] s.toList

/-- The continuation-line test of `extractDKIMHeader`
(src/dkim/dkim.go:122): the line starts with a space or tab. -/
def isContLine : Line → Bool
  | [] => false
  | c :: _ => c == ' ' || c == '\t'

/-- `strings.TrimRight(hv, mail.SingleNewLine)` (src/dkim/dkim.go:132):
removes every trailing `'\r'` or `'\n'` character. -/
def trimRightCRLF (l : Line) : Line :=
  (l.reverse.dropWhile (fun c => c == '\r' || c == '\n')).reverse

/-- `strings.SplitN(h, ": ", 2)` (src/dkim/dkim.go:129), on the case where
the separator occurs: splits the line at the first occurrence of `": "`,
returning the part before and the part after; `none` when the separator
does not occur (Go then yields a one-element slice, which the caller
skips). -/
def splitNAux (acc : List Char) : List Char → Option (List Char × List Char)
  | [] => none
  | c :: rest =>
    if c = ':' ∧ rest.head? = some ' ' then some (acc.reverse, rest.tail)
    else splitNAux (c :: acc) rest

/-- The header name searched for by `extractDKIMHeader`. -/
def sigName : Line := "DKIM-Signature".toList

/-- The header name followed by the `": "` separator. -/
def sigPre : Line := sigName ++ [':', ' ']

/-- The search loop of `extractDKIMHeader` (src/dkim/dkim.go:128-136):
returns the value after the first `": "` of the first collected header
line whose name part is exactly `DKIM-Signature`, with trailing CR/LF
trimmed; the empty line when no such header exists. -/
def findDKIMv : List Line → Line
  | [] => []
  | h :: t =>
    match splitNAux [] h with
    | some (n, v) => if n = sigName then trimRightCRLF v else findDKIMv t
    | none => findDKIMv t

/-- One read event of the `bufio.Reader` feeding `extractDKIMHeader`:
either a successfully read chunk or a non-EOF read error (EOF is the end
of the event list). -/
inductive ReadEv where
  | line (l : Line)
  | err (e : String)

/-- The header-collection loop of `extractDKIMHeader`
(src/dkim/dkim.go:105-127), with the Go append-to-end accumulator kept in
reverse order: stops at EOF, at an empty read or at a lone CRLF line;
joins a continuation line onto the previous collected line; fails on a
non-EOF read error. -/
def scanLoop (racc : List Line) : List ReadEv → Except String (List Line)
  | [] => .ok racc.reverse
  | ReadEv.err e :: _ => .error e
  | ReadEv.line l :: rest =>
    if l.isEmpty then .ok racc.reverse
    else if l = crlf then .ok racc.reverse
    else
      match racc with
      | [] => scanLoop [l] rest
      | prev :: t =>
        if isContLine l then scanLoop ((prev ++ l) :: t) rest
        else scanLoop (l :: prev :: t) rest

/-- `extractDKIMHeader` (src/dkim/dkim.go:104-137) over a stream of read
events. -/
def extractDKIMHeader (evs : List ReadEv) : Except String String :=
  match scanLoop [] evs with
  | .error e => .error e
  | .ok hs => .ok (String.mk (findDKIMv hs))

/-- The read events produced by a `bufio.Reader` over an in-memory
`bytes.Buffer` holding `s`: only successful reads, then EOF. -/
def bufToEvents (s : String) : List ReadEv := (bufLines s).map ReadEv.line

/-! Specification-side definitions for the DKIM header extraction,
written from the claim's words rather than from the loop in the source:
scan up to the first empty or lone-CRLF line, join continuation lines
onto their preceding header line, return the trimmed value of the first
`DKIM-Signature` header. -/

/-- Spec: a line at which the scan stops (empty read or lone CRLF). -/
def stopLine (l : Line) : Bool := l.isEmpty || l == crlf

/-- Spec: the lines scanned before the first stop line. -/
def scannedLines : List Line → List Line
  | [] => []
  | l :: rest => if stopLine l then [] else l :: scannedLines rest

/-- Spec: joins every continuation line (space or tab start) onto the
preceding header line, starting from current line `cur`. -/
def joinFrom (cur : Line) : List Line → List Line
  | [] => [cur]
  | l :: rest => if isContLine l then joinFrom (cur ++ l) rest else cur :: joinFrom l rest

/-- Spec: continuation joining of a whole line list. -/
def joinLines : List Line → List Line
  | [] => []
  | l :: rest => joinFrom l rest

/-- Spec: the value of the first header line that starts with
`"DKIM-Signature: "`, with the trailing newline characters trimmed, or
the empty line when no such header is present. -/
def specFindDKIM : List Line → Line
  | [] => []
  | h :: t =>
    if sigPre.isPrefixOf h then trimRightCRLF (List.drop sigPre.length h)
    else specFindDKIM t

/-- Spec: the DKIM-Signature value the claim describes for a signed
message buffer `s`. -/
def dkimExtractSpec (s : String) : String :=
  String.mk (specFindDKIM (joinLines (scannedLines (bufLines s))))

/-! The `mail.Msg` model: the parts of a go-mail message the three
middlewares observe and mutate. Go map-valued header fields become
association lists with insert-or-replace update. -/

/-- A body part of the message (go-mail `Part`): content type, content
and transfer encoding. -/
structure Part where
  ctype : String
  content : String
  enc : String
deriving DecidableEq

/-- An embedded or attached file (go-mail `File`), reduced to its name
and the bytes its `Writer` emits. -/
structure FileA where
  name : String
  content : String
deriving DecidableEq

/-- go-mail `PGPType` (`NoPGP`, `PGPEncrypt`, `PGPSignature`). -/
inductive PGPTypeM where
  | noPGP
  | encrypt
  | signature
deriving DecidableEq

/-- Insert-or-replace update of an association list, modelling assignment
to a Go map key. -/
def upsert (k : String) (v : α) : List (String × α) → List (String × α)
  | [] => [(k, v)]
  | (k2, v2) :: rest => if k2 = k then (k, v) :: rest else (k2, v2) :: upsert k v rest

/-- Lookup in an association list, modelling a Go map read. -/
def getAssoc (k : String) : List (String × α) → Option α
  | [] => none
  | (k2, v2) :: rest => if k2 = k then some v2 else getAssoc k rest

/-- The go-mail message (`mail.Msg`) as observed by the middlewares:
generic headers (e.g. `Subject`), preformatted headers (where the DKIM
middleware writes its signature), body parts, embedded files, attached
files and the PGP framing type. -/
structure Msg where
  genHeader : List (String × List String)
  preformatted : List (String × String)
  parts : List Part
  embeds : List FileA
  attachments : List FileA
  pgpType : PGPTypeM
deriving DecidableEq

/-- `mail.Msg.GetGenHeader`: the value slice of a generic header, the
empty slice when the header is absent. -/
def Msg.getGenHeader (m : Msg) (k : String) : List String :=
  (getAssoc k m.genHeader).getD []

/-- `mail.Msg.SetGenHeader`: replaces the value slice of a generic
header. -/
def Msg.setGenHeader (m : Msg) (k : String) (vs : List String) : Msg :=
  { m with genHeader := upsert k vs m.genHeader }

/-- `mail.Msg.Subject`: sets the `Subject` generic header to the single
given value. -/
def Msg.subject (m : Msg) (s : String) : Msg :=
  m.setGenHeader "Subject" [s]

/-- `mail.Msg.SetHeaderPreformatted`: stores a header value that is
emitted verbatim at rendering. -/
def Msg.setHeaderPreformatted (m : Msg) (k v : String) : Msg :=
  { m with preformatted := upsert k v m.preformatted }

/-! The dkim middleware (src/dkim/dkim.go). Rendering the message
(`WriteToSkipMiddleware`) and the external signer (`dkim.Sign`) are
parameters; the header extraction is the embedded `extractDKIMHeader`
run over the in-memory buffer produced by the signer. -/

/-- `dkim.Middleware.Handle` (src/dkim/dkim.go:56-76): render the message
without this middleware, sign the rendering, extract the
`DKIM-Signature` header from the signed buffer and, when it is
non-empty, reinsert it as a preformatted header; on any failure return
the message unchanged. -/
def dkimHandle (render : Msg → Except String String)
    (sign : String → Except String String) (m : Msg) : Msg :=
  match render m with
  | .error _ => m
  | .ok ibuf =>
    match sign ibuf with
    | .error _ => m
    | .ok obuf =>
      match extractDKIMHeader (bufToEvents obuf) with
      | .error _ => m
      | .ok h => if h ≠ "" then m.setHeaderPreformatted "DKIM-Signature" h else m

/-! The subject_capitalize middleware
(src/subject_capitalize/subject_capitalize.go). The locale-aware caser
`cases.Title(language.Tag)` is a parameter `casesTitle`; the middleware's
configured language tag is a string. The result is an `Option` because
the Go code indexes `cs[0]` without a bounds check: `none` models the
out-of-range panic. -/

/-- `subcap.Middleware.Handle`
(src/subject_capitalize/subject_capitalize.go:25-30): reads the
`Subject` header values, title-cases the first one under the configured
language tag and stores it back as the subject. `none` when the subject
slice is empty (`cs[0]` panics). -/
def subcapHandle (casesTitle : String → String → String) (lang : String)
    (m : Msg) : Option Msg :=
  let cs := m.getGenHeader "Subject"
  match cs with
  | [] => none
  | s0 :: _ => some (m.subject (casesTitle lang s0))

/-! The openpgp middleware (src/openpgp/config.go, src/openpgp/helper.go
and src/openpgp/openpgp.go). Go's `Action` and `PGPScheme` are `int`
aliases, so they are embedded as `Int` with the named constants. The
gopenpgp library calls are parameters collected in `PGPEnv`. -/

/-- `openpgp.Action` (src/openpgp/config.go:18): an `int` alias. -/
abbrev Action := Int

/-- `openpgp.ActionEncrypt` (iota 0). -/
def ActionEncrypt : Action := 0

/-- `openpgp.ActionEncryptAndSign` (iota 1). -/
def ActionEncryptAndSign : Action := 1

/-- `openpgp.ActionSign` (iota 2). -/
def ActionSign : Action := 2

/-- `openpgp.PGPScheme` (src/openpgp/config.go:15): an `int` alias. -/
abbrev PGPScheme := Int

/-- `openpgp.SchemePGPInline` (iota 0). -/
def SchemePGPInline : PGPScheme := 0

/-- `openpgp.SchemePGPMIME` (iota 1). -/
def SchemePGPMIME : PGPScheme := 1

/-- The sentinel errors of src/openpgp/config.go:40-47; wrapped errors are
identified by the sentinel they wrap. -/
inductive PGPErr where
  | noPrivKey
  | noPubKey
  | unsupportedAction
  | external (e : String)
deriving DecidableEq

/-- A go-mail `log.Logger` as far as the openpgp config observes it: the
destination and the level it was created with (`log.New(out, level)`).
`log.LevelWarn` is 1. -/
structure MLogger where
  out : String
  level : Int
deriving DecidableEq

/-- The default logger `log.New(os.Stderr, log.LevelWarn)` installed by
`NewConfig` when none was provided (src/openpgp/config.go:142-144). -/
def defaultOpgpLogger : MLogger := { out := "os.Stderr", level := 1 }

/-- `openpgp.Config` (src/openpgp/config.go:50-64). -/
structure OpgpConfig where
  action : Action
  logger : Option MLogger
  privKey : String
  publicKey : String
  scheme : PGPScheme
  passphrase : String
deriving DecidableEq

/-- The `Config` literal `&Config{PrivKey: pr, PublicKey: pu}` of
`NewConfig` (src/openpgp/config.go:124): all other fields take their Go
zero values. -/
def initOpgpConfig (pr pu : String) : OpgpConfig :=
  { action := 0, logger := none, privKey := pr, publicKey := pu,
    scheme := 0, passphrase := "" }

/-- The option-application loop of `NewConfig`
(src/openpgp/config.go:127-132): applies every non-nil option in order
(`openpgp.Option` is `func(cfg *Config)`). -/
def applyOptions (c : OpgpConfig) : List (Option (OpgpConfig → OpgpConfig)) → OpgpConfig
  | [] => c
  | none :: rest => applyOptions c rest
  | some f :: rest => applyOptions (f c) rest

/-- `openpgp.WithLogger` (src/openpgp/config.go:150-154). -/
def withLogger (l : MLogger) : Option (OpgpConfig → OpgpConfig) :=
  some (fun c => { c with logger := some l })

/-- `openpgp.WithScheme` (src/openpgp/config.go:157-161). -/
def withScheme (s : PGPScheme) : Option (OpgpConfig → OpgpConfig) :=
  some (fun c => { c with scheme := s })

/-- `openpgp.WithAction` (src/openpgp/config.go:164-168). -/
def withAction (a : Action) : Option (OpgpConfig → OpgpConfig) :=
  some (fun c => { c with action := a })

/-- `openpgp.WithPrivKeyPass` (src/openpgp/config.go:171-175). -/
def withPrivKeyPass (p : String) : Option (OpgpConfig → OpgpConfig) :=
  some (fun c => { c with passphrase := p })

/-- `openpgp.NewConfig` (src/openpgp/config.go:123-147): applies the
options, then validates the keys against the action, then installs the
default logger when none was provided. On a validation error the config
built so far is returned together with the wrapping error. -/
def newOpgpConfig (pr pu : String)
    (o : List (Option (OpgpConfig → OpgpConfig))) : OpgpConfig × Option PGPErr :=
  let c := applyOptions (initOpgpConfig pr pu) o
  if c.privKey = "" ∧ (c.action = ActionSign ∨ c.action = ActionEncryptAndSign) then
    (c, some PGPErr.noPrivKey)
  else if c.publicKey = "" ∧ (c.action = ActionEncrypt ∨ c.action = ActionEncryptAndSign) then
    (c, some PGPErr.noPubKey)
  else
    ({ c with logger := some (c.logger.getD defaultOpgpLogger) }, none)

/-- The gopenpgp library calls used by src/openpgp/helper.go, as abstract
parameters. Each returns the Go `(string, error)` pair, except
`signDetached`, which bundles the key-parse / unlock / keyring /
`SignDetached` / `GetArmored` chain of `signPlainDetached`
(src/openpgp/helper.go:209-229), every step of which is a library call. -/
structure PGPEnv where
  encryptArmored : String → String → String × Option String
  encryptSignArmored : String → String → String → String → String × Option String
  unarmor : String → Except String String
  armorWith : String → String × Option String
  signDetached : String → String → String → Except String String

/-- `openpgp.Middleware.reArmorMessage` (src/openpgp/helper.go:235-241):
unarmors the message (returning the input and the error on failure) and
re-armors it with the package version and comment headers. -/
def reArmorMessage (env : PGPEnv) (d : String) : String × Option String :=
  match env.unarmor d with
  | .error e => (d, some e)
  | .ok ua => env.armorWith ua

/-- `openpgp.Middleware.processPlain` (src/openpgp/helper.go:190-206):
encrypts (or encrypts and signs) the given data according to the
configured action and re-armors the result; any other action yields
`ErrUnsupportedAction`. -/
def processPlain (env : PGPEnv) (c : OpgpConfig) (d : String) : String × Option String :=
  if c.action = ActionEncrypt then
    match env.encryptArmored c.publicKey d with
    | (ct, some e) => (ct, some e)
    | (ct, none) => reArmorMessage env ct
  else if c.action = ActionEncryptAndSign then
    match env.encryptSignArmored c.publicKey c.privKey c.passphrase d with
    | (ct, some e) => (ct, some e)
    | (ct, none) => reArmorMessage env ct
  else ("", some "unsupported action")

/-- `openpgp.Middleware.signPlainDetached` (src/openpgp/helper.go:208-231):
computes a detached armored signature of the data with the configured
private key and passphrase, then re-armors it. -/
def signPlainDetached (env : PGPEnv) (c : OpgpConfig) (d : String) : String × Option String :=
  match env.signDetached c.privKey c.passphrase d with
  | .error e => ("", some e)
  | .ok pt => reArmorMessage env pt

/-- `bufio.MaxScanTokenSize`: the largest token a `bufio.Scanner` with
the default buffer accepts (64 KiB). -/
def maxScanTokenSize : Nat := 65536

/-- `bufio.dropCR`: removes one trailing `'\r'` from a scanned token. -/
def dropCR (l : List Char) : List Char :=
  if l.getLast? = some '\r' then l.dropLast else l

/-- The token stream of a `bufio.Scanner` with the `ScanLines` split over
the render buffer in `pgpMIME` (src/openpgp/helper.go:113-122): split at
`'\n'`, dropping the newline and one preceding `'\r'` (also on the final
unterminated chunk); the scan fails with `ErrTooLong` as soon as
`maxScanTokenSize` characters accumulate without a newline. -/
def scanTextLines (acc : List Char) : List Char → Except String (List Line)
  | [] =>
    if maxScanTokenSize ≤ acc.length then .error "bufio.Scanner: token too long"
    else if acc.isEmpty then .ok []
    else .ok [dropCR acc.reverse]
  | c :: rest =>
    if maxScanTokenSize ≤ acc.length then .error "bufio.Scanner: token too long"
    else if c = '\n' then
      (scanTextLines [] rest).map (fun ls => dropCR acc.reverse :: ls)
    else scanTextLines (c :: acc) rest

/-- The `Content-Type: multipart/mixed;` marker that starts body
collection in `pgpMIME` (src/openpgp/helper.go:116). -/
def mmMarker : Line := "Content-Type: multipart/mixed;".toList

/-- The body-collection loop of `pgpMIME` (src/openpgp/helper.go:114-122):
once a line with the multipart/mixed marker prefix has been seen, every
line from it onward is appended followed by a CRLF. -/
def collectMM (bf : Bool) : List Line → List Char
  | [] => []
  | l :: rest =>
    let bf2 := bf || mmMarker.isPrefixOf l
    (if bf2 then l ++ crlf else []) ++ collectMM bf2 rest

/-- The rendered multipart body `mb` that `pgpMIME` feeds to the
encryption or signature path; fails exactly when the line scan fails
(the `br.Err()` check of src/openpgp/helper.go:123-126). -/
def pgpMIMEBody (rendered : String) : Except String String :=
  (scanTextLines [] rendered.toList).map (fun ls => String.mk (collectMM false ls))

/-- The `application/pgp-encrypted` alternative part added by the
encryption branch of `pgpMIME` (src/openpgp/helper.go:141-143): body
`"Version: 1" + mail.SingleNewLine`, no transfer encoding. -/
def pgpVersionPart : Part :=
  { ctype := "application/pgp-encrypted", content := "Version: 1\r\n", enc := "8bit" }

/-- `openpgp.Middleware.pgpMIME` (src/openpgp/helper.go:94-162): renders
the message (parameter `render`, the multipart framing included), scans
the multipart/mixed body out of it (returning the message unchanged when
the scanner reports an error, helper.go:123-126), and branches on the
action: encrypt paths replace every part, embed and attachment with the
PGP/MIME version part plus an `encrypted.asc` embed and set the PGP
type to encrypted; the sign path attaches a detached `signature.asc`
and sets the PGP type to signature, keeping the original parts.
Failures leave the message unchanged. -/
def pgpMIME (env : PGPEnv) (c : OpgpConfig) (render : Msg → Except String String)
    (msg : Msg) : Msg :=
  match render msg with
  | .error _ => msg
  | .ok rendered =>
    match pgpMIMEBody rendered with
    | .error _ => msg
    | .ok mb =>
    if c.action = ActionEncrypt ∨ c.action = ActionEncryptAndSign then
      match processPlain env c mb with
      | (_, some _) => msg
      | (ct, none) =>
        { msg with
          parts := [pgpVersionPart],
          embeds := [{ name := "encrypted.asc", content := ct }],
          attachments := [],
          pgpType := PGPTypeM.encrypt }
    else if c.action = ActionSign then
      match signPlainDetached env c mb with
      | (_, some _) => msg
      | (ct, none) =>
        { msg with
          attachments := msg.attachments ++ [{ name := "signature.asc", content := ct }],
          pgpType := PGPTypeM.signature }
    else msg

/-! The earlier openpgp middleware of src/openpgp/openpgp.go, whose
`Handle` (lines 118-131) guards on the public key and dispatches on the
scheme. Its `Config` has only a logger, a public key and a scheme. -/

/-- The `Config` of src/openpgp/openpgp.go:41-48 (logger omitted: it only
produces log output). -/
structure OConfig where
  publicKey : String
  scheme : PGPScheme
deriving DecidableEq

/-- The library calls used by `encryptInline`
(src/openpgp/openpgp.go:136-185). -/
structure InlineEnv where
  encryptArmored : String → String → String × Option String
  encryptBinary : String → String → String × Option String

/-- `openpgp.Middleware.encryptInline` (src/openpgp/openpgp.go:136-185):
text/plain parts are encrypted (base64 encoding set), octet-stream parts
are binary-encrypted, other parts are deleted; attachments are
re-attached encrypted, with the write buffer accumulating across
iterations as in the source (it is never reset), and dropped when
encryption fails. -/
def encryptInline (env : InlineEnv) (c : OConfig) (msg : Msg) : Msg :=
  let parts2 := msg.parts.filterMap (fun p =>
    if p.ctype = "text/plain" then
      match env.encryptArmored c.publicKey p.content with
      | (_, some _) => some p
      | (s, none) => some { p with enc := "base64", content := s }
    else if p.ctype = "application/octet-stream" then
      match env.encryptBinary c.publicKey p.content with
      | (_, some _) => some p
      | (s, none) => some { p with content := s }
    else none)
  let atts2 := (msg.attachments.foldl (fun (st : List FileA × String) f =>
    let buf := st.2 ++ f.content
    match env.encryptBinary c.publicKey buf with
    | (_, some _) => (st.1, buf)
    | (b, none) => (st.1 ++ [{ name := f.name, content := b }], buf)) ([], "")).1
  { msg with parts := parts2, attachments := atts2 }

/-- `openpgp.Middleware.Handle` (src/openpgp/openpgp.go:118-131): returns
the message unchanged when no public key is configured; dispatches to
`encryptInline` for `SchemePGPInline`; every other scheme only logs a
warning and returns the message unchanged. -/
def opgpHandle (env : InlineEnv) (c : OConfig) (msg : Msg) : Msg :=
  if c.publicKey = "" then msg
  else if c.scheme = SchemePGPInline then encryptInline env c msg
  else msg

/-! The dkim `SignerConfig` validation (src/unnamed/part_000, package
dkim). `dkim.Canonicalization` is a string type; `crypto.Hash` is a
`uint` whose `String()` method names the registered algorithms, so it is
embedded as `Nat` together with that name table. -/

/-- The `String()` method of Go's `crypto.Hash`: the names of the
registered hash functions in registration order (`crypto.MD4` is 1,
`crypto.SHA256` is 5, ..., `crypto.BLAKE2b_512` is 19); any other value
prints as an unknown hash value. -/
def hashString (h : Nat) : String :=
  if h = 1 then "MD4"
  else if h = 2 then "MD5"
  else if h = 3 then "SHA-1"
  else if h = 4 then "SHA-224"
  else if h = 5 then "SHA-256"
  else if h = 6 then "SHA-384"
  else if h = 7 then "SHA-512"
  else if h = 8 then "MD5+SHA1"
  else if h = 9 then "RIPEMD-160"
  else if h = 10 then "SHA3-224"
  else if h = 11 then "SHA3-256"
  else if h = 12 then "SHA3-384"
  else if h = 13 then "SHA3-512"
  else if h = 14 then "SHA-512/224"
  else if h = 15 then "SHA-512/256"
  else if h = 16 then "BLAKE2s-256"
  else if h = 17 then "BLAKE2b-256"
  else if h = 18 then "BLAKE2b-384"
  else if h = 19 then "BLAKE2b-512"
  else "unknown hash value " ++ toString h

/-- `crypto.SHA256`. -/
def cryptoSHA256 : Nat := 5

/-- `dkim.SignerConfig` (src/unnamed/part_000:16-111), with
`dkim.Canonicalization` as `String`, `crypto.Hash` as `Nat` and the
expiration time as an integer timestamp. -/
structure SignerConfig where
  auid : String
  canonicalizationHeader : String
  canonicalizationBody : String
  domain : String
  expiration : Int
  hashAlgo : Nat
  headerFields : List String
  selector : String
deriving DecidableEq

/-- `SignerConfig.HashAlgoIsValid` (src/unnamed/part_000:268-275): the
switch on `ha.String()` accepts only the name `"SHA-256"`. -/
def hashAlgoIsValid (_sc : SignerConfig) (ha : Nat) : Bool :=
  if hashString ha = "SHA-256" then true else false

/-- `SignerConfig.CanonicalizationIsValid` (src/unnamed/part_000:278-286):
the switch accepts only `"simple"` and `"relaxed"`. -/
def canonicalizationIsValid (_sc : SignerConfig) (c : String) : Bool :=
  if c = "simple" then true else if c = "relaxed" then true else false

/-- The formatted `errInvalidCanonicalization` message. -/
def errCanon (c : String) : String := "unsupported canonicalization type: " ++ c

/-- The formatted `errInvalidHashAlgo` message. -/
def errHash (ha : Nat) : String := "unsupported hashing algorithm: " ++ hashString ha

/-- `dkim.WithHeaderCanonicalization` (src/unnamed/part_000:150-158), as
the mutation the returned option performs on a config: on an invalid
value the error is returned before the field is assigned. -/
def withHeaderCanonicalization (c : String) (sc : SignerConfig) :
    SignerConfig × Option String :=
  if canonicalizationIsValid sc c then ({ sc with canonicalizationHeader := c }, none)
  else (sc, some (errCanon c))

/-- `dkim.WithBodyCanonicalization` (src/unnamed/part_000:161-169). -/
def withBodyCanonicalization (c : String) (sc : SignerConfig) :
    SignerConfig × Option String :=
  if canonicalizationIsValid sc c then ({ sc with canonicalizationBody := c }, none)
  else (sc, some (errCanon c))

/-- `dkim.WithHashAlgo` (src/unnamed/part_000:183-191). -/
def withHashAlgo (ha : Nat) (sc : SignerConfig) : SignerConfig × Option String :=
  if hashAlgoIsValid sc ha then ({ sc with hashAlgo := ha }, none)
  else (sc, some (errHash ha))

/-- `SignerConfig.SetHeaderCanonicalization` (src/unnamed/part_000:217-223). -/
def setHeaderCanonicalization (sc : SignerConfig) (c : String) :
    SignerConfig × Option String :=
  if canonicalizationIsValid sc c then ({ sc with canonicalizationHeader := c }, none)
  else (sc, some (errCanon c))

/-- `SignerConfig.SetBodyCanonicalization` (src/unnamed/part_000:226-232). -/
def setBodyCanonicalization (sc : SignerConfig) (c : String) :
    SignerConfig × Option String :=
  if canonicalizationIsValid sc c then ({ sc with canonicalizationBody := c }, none)
  else (sc, some (errCanon c))

/-- `SignerConfig.SetHashAlgo` (src/unnamed/part_000:244-250). -/
def setHashAlgo (sc : SignerConfig) (ha : Nat) : SignerConfig × Option String :=
  if hashAlgoIsValid sc ha then ({ sc with hashAlgo := ha }, none)
  else (sc, some (errHash ha))

/-! Lemmas about the DKIM extraction loop. -/

/-- Splitting at the signature-name pattern: the scan finds the first
`": "` right after the concrete header name. -/
lemma splitNAux_pre (v : List Char) :
    splitNAux [] (sigPre ++ v) = some (sigName, v) := rfl

/-- Soundness of the `": "` scan: a successful split reassembles to the
scanned text. -/
lemma splitNAux_sound : ∀ (l : List Char) (acc n v : List Char),
    splitNAux acc l = some (n, v) → n ++ ':' :: ' ' :: v = acc.reverse ++ l := by
  intro l
  induction l with
  | nil => intro acc n v h; simp [splitNAux] at h
  | cons c rest ih =>
    intro acc n v h
    by_cases hc : c = ':' ∧ rest.head? = some ' '
    · rw [splitNAux, if_pos hc] at h
      obtain ⟨hn, hv⟩ := Prod.mk.injEq .. ▸ Option.some.injEq .. ▸ h
      obtain ⟨hcc, hh⟩ := hc
      cases rest with
      | nil => simp at hh
      | cons c2 rest2 =>
        simp only [List.head?_cons, Option.some.injEq] at hh
        subst hcc hh hn
        simp at hv
        subst hv
        simp
    · rw [splitNAux, if_neg hc] at h
      have := ih (c :: acc) n v h
      simpa using this

/-- A line on which the split names `DKIM-Signature` starts with the
`"DKIM-Signature: "` text. -/
lemma splitNAux_name_pre {h v : List Char}
    (hs : splitNAux [] h = some (sigName, v)) : h = sigPre ++ v := by
  have := splitNAux_sound h [] sigName v hs
  simpa [sigPre] using this.symm

/-- The two searches for the first `DKIM-Signature` header agree. -/
lemma findDKIMv_eq_spec : ∀ hs : List Line, findDKIMv hs = specFindDKIM hs := by
  intro hs
  induction hs with
  | nil => rfl
  | cons h t ih =>
    by_cases hp : sigPre.isPrefixOf h
    · have hpre : sigPre <+: h := by
        exact List.isPrefixOf_iff_prefix.mp hp
      obtain ⟨v, hv⟩ := hpre
      subst hv
      rw [findDKIMv, specFindDKIM, splitNAux_pre, if_pos hp]
      simp [List.drop_left]
    · rw [findDKIMv, specFindDKIM, if_neg hp]
      cases hsp : splitNAux [] h with
      | none => exact ih
      | some p =>
        obtain ⟨n, v⟩ := p
        have hn : n ≠ sigName := by
          intro hn
          subst hn
          have hpp := List.isPrefixOf_iff_prefix.mpr ⟨v, (splitNAux_name_pre hsp).symm⟩
          exact hp hpp
        simp [hn, ih]

/-- The collection loop with a non-empty accumulator realises the
continuation joining of the scanned lines, continuing from the last
collected line. -/
lemma scanLoop_cons : ∀ (ls : List Line) (prev : Line) (t : List Line),
    scanLoop (prev :: t) (ls.map ReadEv.line) =
      .ok (t.reverse ++ joinFrom prev (scannedLines ls)) := by
  intro ls
  induction ls with
  | nil => intro prev t; simp [scanLoop, joinFrom, scannedLines]
  | cons l ls ih =>
    intro prev t
    by_cases h1 : l.isEmpty
    · simp [scanLoop, scannedLines, stopLine, h1, joinFrom]
    · by_cases h2 : l = crlf
      · simp [scanLoop, scannedLines, stopLine, h1, h2, joinFrom]
      · by_cases h3 : isContLine l
        · rw [List.map_cons, scanLoop]
          simp only [h1, Bool.false_eq_true, if_false, h2, if_false, h3, if_true]
          rw [ih (prev ++ l) t]
          have hs : stopLine l = false := by simp [stopLine, h1, h2]
          simp [scannedLines, hs, joinFrom, h3]
        · rw [List.map_cons, scanLoop]
          simp only [h1, Bool.false_eq_true, if_false, h2, if_false, h3, Bool.false_eq_true,
            if_false]
          rw [ih l (prev :: t)]
          have hs : stopLine l = false := by simp [stopLine, h1, h2]
          simp [scannedLines, hs, joinFrom, h3]

/-- The collection loop started empty computes the continuation joining
of the scanned lines. -/
lemma scanLoop_nil : ∀ ls : List Line,
    scanLoop [] (ls.map ReadEv.line) = .ok (joinLines (scannedLines ls)) := by
  intro ls
  cases ls with
  | nil => rfl
  | cons l ls =>
    by_cases h1 : l.isEmpty
    · simp [scanLoop, scannedLines, stopLine, h1, joinLines]
    · by_cases h2 : l = crlf
      · simp [scanLoop, scannedLines, stopLine, h1, h2, joinLines]
      · rw [List.map_cons, scanLoop]
        simp only [h1, Bool.false_eq_true, if_false, h2, if_false]
        rw [scanLoop_cons ls l []]
        have hs : stopLine l = false := by simp [stopLine, h1, h2]
        simp [scannedLines, hs, joinLines]

/-- Extraction over an in-memory buffer never fails and matches the
claim's description. -/
lemma extract_ok (s : String) :
    extractDKIMHeader (bufToEvents s) = .ok (dkimExtractSpec s) := by
  rw [extractDKIMHeader, bufToEvents, scanLoop_nil, dkimExtractSpec]
  exact congrArg (fun l => Except.ok (String.mk l)) (findDKIMv_eq_spec _)

/-- Claim C1: `extractDKIMHeader` scans a signed message buffer line by
line up to the first empty read or lone CRLF line, joins continuation
lines beginning with a space or tab onto the preceding header line, and
returns the value of the first header named exactly `DKIM-Signature`
with the trailing newline trimmed (the empty string when absent); and
`Handle` reinserts that value as a preformatted `DKIM-Signature` header
if and only if it is non-empty. -/
theorem dkim_extract_spec_and_handle_reinserts :
    (∀ s : String, extractDKIMHeader (bufToEvents s) = .ok (dkimExtractSpec s)) ∧
    (∀ (render : Msg → Except String String) (sign : String → Except String String)
       (m : Msg) (ibuf obuf : String),
      render m = Except.ok ibuf → sign ibuf = Except.ok obuf →
      dkimHandle render sign m =
        if dkimExtractSpec obuf = "" then m
        else m.setHeaderPreformatted "DKIM-Signature" (dkimExtractSpec obuf)) := by
  refine ⟨extract_ok, ?_⟩
  intro render sign m ibuf obuf hr hs
  simp only [dkimHandle, hr, hs, extract_ok]
  by_cases h : dkimExtractSpec obuf = "" <;> simp [h]

/-- Witness for C1: a concrete signed buffer whose extracted signature is
reinserted by `Handle`. -/
theorem dkim_extract_spec_and_handle_reinserts_witness :
    dkimHandle (fun _ => Except.ok "")
        (fun _ => Except.ok "DKIM-Signature: v=1; a=rsa;\r\n b=x;\r\n\r\nbody")
        { genHeader := [], preformatted := [], parts := [], embeds := [],
          attachments := [], pgpType := PGPTypeM.noPGP } =
      Msg.setHeaderPreformatted
        { genHeader := [], preformatted := [], parts := [], embeds := [],
          attachments := [], pgpType := PGPTypeM.noPGP }
        "DKIM-Signature" "v=1; a=rsa;\r\n b=x;" := by
  have h := dkim_extract_spec_and_handle_reinserts.2
    (fun _ => Except.ok "")
    (fun _ => Except.ok "DKIM-Signature: v=1; a=rsa;\r\n b=x;\r\n\r\nbody")
    { genHeader := [], preformatted := [], parts := [], embeds := [],
      attachments := [], pgpType := PGPTypeM.noPGP }
    "" "DKIM-Signature: v=1; a=rsa;\r\n b=x;\r\n\r\nbody" rfl rfl
  rw [h]
  rfl

/-- Claim C9: the dkim `Handle` is atomic on failure: a render failure, a
signing failure, or an empty extracted header leaves the message exactly
as received; a preformatted `DKIM-Signature` header is added only on
full success with a non-empty extracted value. -/
theorem dkim_handle_atomic :
    ∀ (render : Msg → Except String String) (sign : String → Except String String) (m : Msg),
      (∀ e, render m = Except.error e → dkimHandle render sign m = m) ∧
      (∀ ibuf e, render m = Except.ok ibuf → sign ibuf = Except.error e →
        dkimHandle render sign m = m) ∧
      (∀ ibuf obuf, render m = Except.ok ibuf → sign ibuf = Except.ok obuf →
        dkimExtractSpec obuf = "" → dkimHandle render sign m = m) ∧
      (∀ ibuf obuf, render m = Except.ok ibuf → sign ibuf = Except.ok obuf →
        dkimExtractSpec obuf ≠ "" →
        dkimHandle render sign m =
          m.setHeaderPreformatted "DKIM-Signature" (dkimExtractSpec obuf)) := by
  intro render sign m
  refine ⟨?_, ?_, ?_, ?_⟩
  · intro e hr; simp only [dkimHandle, hr]
  · intro ibuf e hr hs; simp only [dkimHandle, hr, hs]
  · intro ibuf obuf hr hs hx; simp only [dkimHandle, hr, hs, extract_ok]; simp [hx]
  · intro ibuf obuf hr hs hx; simp only [dkimHandle, hr, hs, extract_ok]; simp [hx]

/-- Witness for C9: a failing signer leaves a concrete message
unchanged. -/
theorem dkim_handle_atomic_witness :
    dkimHandle (fun _ => Except.ok "rendered") (fun _ => Except.error "signing failed")
        { genHeader := [("Subject", ["hi"])], preformatted := [], parts := [], embeds := [],
          attachments := [], pgpType := PGPTypeM.noPGP } =
      { genHeader := [("Subject", ["hi"])], preformatted := [], parts := [], embeds := [],
        attachments := [], pgpType := PGPTypeM.noPGP } :=
  (dkim_handle_atomic (fun _ => Except.ok "rendered") (fun _ => Except.error "signing failed")
    { genHeader := [("Subject", ["hi"])], preformatted := [], parts := [], embeds := [],
      attachments := [], pgpType := PGPTypeM.noPGP }).2.1 "rendered" "signing failed" rfl rfl

/-- Claim C3: `openpgp.NewConfig`, after applying all non-nil options in
order, fails wrapping `ErrNoPrivKey` exactly when the private key is
empty and the action needs signing; otherwise fails wrapping
`ErrNoPubKey` exactly when the public key is empty and the action needs
encryption; in all other cases it returns the built config with no
error, installing the default warn-level logger exactly when no logger
was provided by an option. -/
theorem opgp_newConfig_validation :
    ∀ (pr pu : String) (o : List (Option (OpgpConfig → OpgpConfig))),
      ((newOpgpConfig pr pu o).2 = some PGPErr.noPrivKey ↔
        (applyOptions (initOpgpConfig pr pu) o).privKey = "" ∧
        ((applyOptions (initOpgpConfig pr pu) o).action = ActionSign ∨
         (applyOptions (initOpgpConfig pr pu) o).action = ActionEncryptAndSign)) ∧
      ((newOpgpConfig pr pu o).2 = some PGPErr.noPubKey ↔
        ¬((applyOptions (initOpgpConfig pr pu) o).privKey = "" ∧
          ((applyOptions (initOpgpConfig pr pu) o).action = ActionSign ∨
           (applyOptions (initOpgpConfig pr pu) o).action = ActionEncryptAndSign)) ∧
        (applyOptions (initOpgpConfig pr pu) o).publicKey = "" ∧
        ((applyOptions (initOpgpConfig pr pu) o).action = ActionEncrypt ∨
         (applyOptions (initOpgpConfig pr pu) o).action = ActionEncryptAndSign)) ∧
      ((newOpgpConfig pr pu o).2 = none ↔
        ¬((applyOptions (initOpgpConfig pr pu) o).privKey = "" ∧
          ((applyOptions (initOpgpConfig pr pu) o).action = ActionSign ∨
           (applyOptions (initOpgpConfig pr pu) o).action = ActionEncryptAndSign)) ∧
        ¬((applyOptions (initOpgpConfig pr pu) o).publicKey = "" ∧
          ((applyOptions (initOpgpConfig pr pu) o).action = ActionEncrypt ∨
           (applyOptions (initOpgpConfig pr pu) o).action = ActionEncryptAndSign))) ∧
      ((newOpgpConfig pr pu o).2 = none →
        (newOpgpConfig pr pu o).1 =
          { applyOptions (initOpgpConfig pr pu) o with
            logger := some ((applyOptions (initOpgpConfig pr pu) o).logger.getD
              defaultOpgpLogger) }) := by
  intro pr pu o
  set c := applyOptions (initOpgpConfig pr pu) o with hc
  by_cases hA : c.privKey = "" ∧ (c.action = ActionSign ∨ c.action = ActionEncryptAndSign)
  · refine ⟨by simp [newOpgpConfig, ← hc, hA], by simp [newOpgpConfig, ← hc, hA],
      by simp [newOpgpConfig, ← hc, hA], ?_⟩
    intro hnone
    exfalso
    simp [newOpgpConfig, ← hc, hA] at hnone
  · by_cases hB : c.publicKey = "" ∧ (c.action = ActionEncrypt ∨ c.action = ActionEncryptAndSign)
    · refine ⟨by simp [newOpgpConfig, ← hc, hA, hB], by simp [newOpgpConfig, ← hc, hA, hB],
        by simp [newOpgpConfig, ← hc, hA, hB], ?_⟩
      intro hnone
      exfalso
      simp [newOpgpConfig, ← hc, hA, hB] at hnone
    · exact ⟨by simp [newOpgpConfig, ← hc, hA, hB],
        by simp [newOpgpConfig, ← hc, hA, hB],
        by simp [newOpgpConfig, ← hc, hA, hB],
        fun _ => by simp [newOpgpConfig, ← hc, hA, hB]⟩

/-- Witness for C3: empty keys with the default (encrypt) action fail
wrapping `ErrNoPubKey`. -/
theorem opgp_newConfig_validation_witness :
    (newOpgpConfig "" "" []).2 = some PGPErr.noPubKey :=
  ((opgp_newConfig_validation "" "" []).2.1).mpr
    (by refine ⟨?_, rfl, Or.inl rfl⟩
        intro h
        rcases h.2 with h2 | h2 <;> simp [applyOptions, initOpgpConfig, ActionSign,
          ActionEncryptAndSign] at h2)

/-- Beyond the registered hash values the `String()` table falls back to
the unknown-value text. -/
lemma hashString_large {ha : Nat} (h20 : 20 ≤ ha) :
    hashString ha = "unknown hash value " ++ toString ha := by
  unfold hashString
  repeat rw [if_neg (by omega)]

/-- Only `crypto.SHA256` (value 5) prints as `"SHA-256"`. -/
lemma hashString_eq_sha256_iff (ha : Nat) : hashString ha = "SHA-256" ↔ ha = 5 := by
  constructor
  · intro h
    by_cases hlt : ha < 20
    · interval_cases ha <;> first | rfl | exact absurd h (by decide)
    · rw [hashString_large (by omega)] at h
      have hl := congrArg String.length h
      rw [String.length_append] at hl
      have h19 : ("unknown hash value ").length = 19 := by decide
      have h7 : ("SHA-256").length = 7 := by decide
      rw [h19, h7] at hl
      omega
  · intro h; subst h; rfl

/-- Claim C4: the dkim `SignerConfig` accepts a canonicalization value
iff it is `"simple"` or `"relaxed"` and a hash algorithm iff it is
SHA-256; the `With*` options and `Set*` setters reject every other value
with an error and leave the configuration unchanged. -/
theorem dkim_config_validation :
    ∀ (sc : SignerConfig) (c : String) (ha : Nat),
      (canonicalizationIsValid sc c = true ↔ (c = "simple" ∨ c = "relaxed")) ∧
      (hashAlgoIsValid sc ha = true ↔ ha = cryptoSHA256) ∧
      (¬(c = "simple" ∨ c = "relaxed") →
        withHeaderCanonicalization c sc = (sc, some (errCanon c)) ∧
        withBodyCanonicalization c sc = (sc, some (errCanon c)) ∧
        setHeaderCanonicalization sc c = (sc, some (errCanon c)) ∧
        setBodyCanonicalization sc c = (sc, some (errCanon c))) ∧
      (ha ≠ cryptoSHA256 →
        withHashAlgo ha sc = (sc, some (errHash ha)) ∧
        setHashAlgo sc ha = (sc, some (errHash ha))) := by
  intro sc c ha
  have hcan : canonicalizationIsValid sc c = true ↔ (c = "simple" ∨ c = "relaxed") := by
    constructor
    · intro h
      by_contra hb
      push_neg at hb
      unfold canonicalizationIsValid at h
      rw [if_neg hb.1, if_neg hb.2] at h
      exact absurd h (by decide)
    · intro h
      rcases h with h | h <;> subst h <;> rfl
  have hhash : hashAlgoIsValid sc ha = true ↔ ha = cryptoSHA256 := by
    unfold hashAlgoIsValid
    rw [cryptoSHA256]
    split_ifs with h1
    · simp [(hashString_eq_sha256_iff ha).mp h1]
    · simp
      intro h5
      exact h1 ((hashString_eq_sha256_iff ha).mpr h5)
  refine ⟨hcan, hhash, ?_, ?_⟩
  · intro hbad
    have hfalse : canonicalizationIsValid sc c = false := by
      cases hv : canonicalizationIsValid sc c
      · rfl
      · exact absurd (hcan.mp hv) hbad
    exact ⟨by simp [withHeaderCanonicalization, hfalse],
      by simp [withBodyCanonicalization, hfalse],
      by simp [setHeaderCanonicalization, hfalse],
      by simp [setBodyCanonicalization, hfalse]⟩
  · intro hbad
    have hfalse : hashAlgoIsValid sc ha = false := by
      cases hv : hashAlgoIsValid sc ha
      · rfl
      · exact absurd (hhash.mp hv) hbad
    exact ⟨by simp [withHashAlgo, hfalse], by simp [setHashAlgo, hfalse]⟩

/-- Witness for C4: the canonicalization `"strict"` and the SHA-1 hash
(value 3) are rejected without modifying a concrete configuration. -/
theorem dkim_config_validation_witness :
    withHashAlgo 3
        { auid := "", canonicalizationHeader := "simple", canonicalizationBody := "simple",
          domain := "example.com", expiration := 0, hashAlgo := 5, headerFields := [],
          selector := "sel" } =
      ({ auid := "", canonicalizationHeader := "simple", canonicalizationBody := "simple",
         domain := "example.com", expiration := 0, hashAlgo := 5, headerFields := [],
         selector := "sel" }, some (errHash 3)) ∧
    setHeaderCanonicalization
        { auid := "", canonicalizationHeader := "simple", canonicalizationBody := "simple",
          domain := "example.com", expiration := 0, hashAlgo := 5, headerFields := [],
          selector := "sel" } "strict" =
      ({ auid := "", canonicalizationHeader := "simple", canonicalizationBody := "simple",
         domain := "example.com", expiration := 0, hashAlgo := 5, headerFields := [],
         selector := "sel" }, some (errCanon "strict")) :=
  ⟨((dkim_config_validation
      { auid := "", canonicalizationHeader := "simple", canonicalizationBody := "simple",
        domain := "example.com", expiration := 0, hashAlgo := 5, headerFields := [],
        selector := "sel" } "strict" 3).2.2.2 (by decide)).1,
   ((dkim_config_validation
      { auid := "", canonicalizationHeader := "simple", canonicalizationBody := "simple",
        domain := "example.com", expiration := 0, hashAlgo := 5, headerFields := [],
        selector := "sel" } "strict" 3).2.2.1 (by decide)).2.2.1⟩

/-- Claim C10: for every configured action other than `ActionEncrypt`
and `ActionEncryptAndSign` — in particular `ActionSign` —
`processPlain` returns the empty string together with
`ErrUnsupportedAction`, before calling any library function. -/
theorem processPlain_unsupported_action :
    ∀ (env : PGPEnv) (c : OpgpConfig) (d : String),
      c.action ≠ ActionEncrypt → c.action ≠ ActionEncryptAndSign →
      processPlain env c d = ("", some "unsupported action") := by
  intro env c d h0 h1
  rw [processPlain, if_neg h0, if_neg h1]

/-- Witness for C10: a sign-only configuration is rejected by
`processPlain`, whatever the environment does. -/
theorem processPlain_unsupported_action_witness :
    processPlain
        { encryptArmored := fun _ d => (d, none),
          encryptSignArmored := fun _ _ _ d => (d, none),
          unarmor := fun s => Except.ok s,
          armorWith := fun s => (s, none),
          signDetached := fun _ _ d => Except.ok d }
        { action := ActionSign, logger := none, privKey := "priv", publicKey := "pub",
          scheme := SchemePGPMIME, passphrase := "" }
        "hello" = ("", some "unsupported action") :=
  processPlain_unsupported_action
    { encryptArmored := fun _ d => (d, none),
      encryptSignArmored := fun _ _ _ d => (d, none),
      unarmor := fun s => Except.ok s,
      armorWith := fun s => (s, none),
      signDetached := fun _ _ d => Except.ok d }
    { action := ActionSign, logger := none, privKey := "priv", publicKey := "pub",
      scheme := SchemePGPMIME, passphrase := "" }
    "hello" (by decide) (by decide)

/-- Claim C2: the `pgpMIME` branch is selected by the configured action:
once the message renders and its body scans (a scanner failure returns
the message unchanged), the encrypt and encrypt-and-sign actions push
the rendered body through the encryption path and replace every part,
embed and attachment with the PGP/MIME version part plus an
`encrypted.asc` embed, setting the message PGP type to encrypted; the
sign action attaches a detached armored signature as `signature.asc`
and sets the PGP type to signature, keeping the original parts. -/
theorem pgpMIME_branch_selection :
    ∀ (env : PGPEnv) (c : OpgpConfig) (render : Msg → Except String String)
      (msg : Msg) (rendered : String),
      render msg = Except.ok rendered →
      (∀ e, pgpMIMEBody rendered = Except.error e → pgpMIME env c render msg = msg) ∧
      (∀ mb, pgpMIMEBody rendered = Except.ok mb →
        ((c.action = ActionEncrypt ∨ c.action = ActionEncryptAndSign) →
          ∀ ct, processPlain env c mb = (ct, none) →
            pgpMIME env c render msg =
              { msg with
                parts := [pgpVersionPart],
                embeds := [{ name := "encrypted.asc", content := ct }],
                attachments := [],
                pgpType := PGPTypeM.encrypt }) ∧
        (c.action = ActionSign →
          ∀ ct, signPlainDetached env c mb = (ct, none) →
            pgpMIME env c render msg =
              { msg with
                attachments := msg.attachments ++ [{ name := "signature.asc", content := ct }],
                pgpType := PGPTypeM.signature })) := by
  intro env c render msg rendered hr
  constructor
  · intro e hb
    simp only [pgpMIME, hr, hb]
  · intro mb hb
    constructor
    · intro hact ct hp
      simp only [pgpMIME, hr, hb, if_pos hact, hp]
    · intro hact ct hp
      have h0 : ¬(c.action = ActionEncrypt ∨ c.action = ActionEncryptAndSign) := by
        rw [hact]; decide
      simp only [pgpMIME, hr, hb, if_neg h0, if_pos hact, hp]

/-- Witness for C2: a sign-only middleware attaches the computed
detached signature to a concrete message. -/
theorem pgpMIME_branch_selection_witness :
    pgpMIME
        { encryptArmored := fun _ d => (d, none),
          encryptSignArmored := fun _ _ _ d => (d, none),
          unarmor := fun s => Except.ok s,
          armorWith := fun s => ("ARMOR:" ++ s, none),
          signDetached := fun _ _ d => Except.ok ("SIG:" ++ d) }
        { action := ActionSign, logger := none, privKey := "priv", publicKey := "pub",
          scheme := SchemePGPMIME, passphrase := "" }
        (fun _ => Except.ok "Content-Type: multipart/mixed; b=1\r\nbody")
        { genHeader := [], preformatted := [], parts := [], embeds := [],
          attachments := [], pgpType := PGPTypeM.noPGP } =
      { genHeader := [], preformatted := [], parts := [], embeds := [],
        attachments := [{ name := "signature.asc", content := "ARMOR:SIG:Content-Type: multipart/mixed; b=1\r\nbody\r\n" }],
        pgpType := PGPTypeM.signature } :=
  ((((pgpMIME_branch_selection
      { encryptArmored := fun _ d => (d, none),
        encryptSignArmored := fun _ _ _ d => (d, none),
        unarmor := fun s => Except.ok s,
        armorWith := fun s => ("ARMOR:" ++ s, none),
        signDetached := fun _ _ d => Except.ok ("SIG:" ++ d) }
      { action := ActionSign, logger := none, privKey := "priv", publicKey := "pub",
        scheme := SchemePGPMIME, passphrase := "" }
      (fun _ => Except.ok "Content-Type: multipart/mixed; b=1\r\nbody")
      { genHeader := [], preformatted := [], parts := [], embeds := [],
        attachments := [], pgpType := PGPTypeM.noPGP }
      "Content-Type: multipart/mixed; b=1\r\nbody" rfl).2
    "Content-Type: multipart/mixed; b=1\r\nbody\r\n" rfl).2 rfl)
    "ARMOR:SIG:Content-Type: multipart/mixed; b=1\r\nbody\r\n" (by decide))

/-- Claim C6: the openpgp `Handle` of src/openpgp/openpgp.go is a
trivial scheme switch: with an empty public key, or with any scheme
other than `SchemePGPInline` (`SchemePGPMIME` included), the message is
returned with no part, embed, attachment or header modified. -/
theorem opgp_handle_frame :
    ∀ (env : InlineEnv) (c : OConfig) (msg : Msg),
      c.publicKey = "" ∨ c.scheme ≠ SchemePGPInline →
      opgpHandle env c msg = msg := by
  intro env c msg h
  rcases h with h | h
  · rw [opgpHandle, if_pos h]
  · by_cases hpk : c.publicKey = ""
    · rw [opgpHandle, if_pos hpk]
    · rw [opgpHandle, if_neg hpk, if_neg h]

/-- Witness for C6: a PGP/MIME-configured middleware leaves a concrete
message with parts and attachments untouched. -/
theorem opgp_handle_frame_witness :
    opgpHandle
        { encryptArmored := fun _ d => (d, none), encryptBinary := fun _ d => (d, none) }
        { publicKey := "pub", scheme := SchemePGPMIME }
        { genHeader := [("Subject", ["s"])], preformatted := [],
          parts := [{ ctype := "text/plain", content := "b", enc := "8bit" }],
          embeds := [], attachments := [{ name := "a.txt", content := "x" }],
          pgpType := PGPTypeM.noPGP } =
      { genHeader := [("Subject", ["s"])], preformatted := [],
        parts := [{ ctype := "text/plain", content := "b", enc := "8bit" }],
        embeds := [], attachments := [{ name := "a.txt", content := "x" }],
        pgpType := PGPTypeM.noPGP } :=
  opgp_handle_frame
    { encryptArmored := fun _ d => (d, none), encryptBinary := fun _ d => (d, none) }
    { publicKey := "pub", scheme := SchemePGPMIME }
    { genHeader := [("Subject", ["s"])], preformatted := [],
      parts := [{ ctype := "text/plain", content := "b", enc := "8bit" }],
      embeds := [], attachments := [{ name := "a.txt", content := "x" }],
      pgpType := PGPTypeM.noPGP }
    (Or.inr (by decide))

/-- The assoc-list update reads back the written value at its key. -/
lemma getAssoc_upsert_self (k : String) (v : α) :
    ∀ l : List (String × α), getAssoc k (upsert k v l) = some v := by
  intro l
  induction l with
  | nil => simp [upsert, getAssoc]
  | cons p rest ih =>
    obtain ⟨k2, v2⟩ := p
    by_cases hk : k2 = k
    · simp [upsert, getAssoc, hk]
    · simp [upsert, getAssoc, hk, ih]

/-- The assoc-list update leaves every other key unread. -/
lemma getAssoc_upsert_ne (k k2 : String) (v : α) (hne : k2 ≠ k) :
    ∀ l : List (String × α), getAssoc k2 (upsert k v l) = getAssoc k2 l := by
  intro l
  induction l with
  | nil => simp [upsert, getAssoc, Ne.symm hne]
  | cons p rest ih =>
    obtain ⟨k3, v3⟩ := p
    by_cases hk : k3 = k
    · subst hk
      simp [upsert, getAssoc, Ne.symm hne]
    · by_cases hk2 : k3 = k2 <;> simp [upsert, getAssoc, hk, hk2, ih, hne, Ne.symm hne]

/-- Claim C7: on every message with at least one `Subject` header value,
the subject_capitalize `Handle` replaces the subject with the
title-cased form of the first value under the configured language tag,
exactly as computed by the external caser, and modifies nothing else
about the message. -/
theorem subcap_handle_titlecases_subject :
    ∀ (casesTitle : String → String → String) (lang : String) (m : Msg)
      (s0 : String) (rest : List String),
      m.getGenHeader "Subject" = s0 :: rest →
      subcapHandle casesTitle lang m = some (m.subject (casesTitle lang s0)) ∧
      (m.subject (casesTitle lang s0)).getGenHeader "Subject" = [casesTitle lang s0] ∧
      (∀ k, k ≠ "Subject" →
        (m.subject (casesTitle lang s0)).getGenHeader k = m.getGenHeader k) ∧
      (m.subject (casesTitle lang s0)).preformatted = m.preformatted ∧
      (m.subject (casesTitle lang s0)).parts = m.parts ∧
      (m.subject (casesTitle lang s0)).embeds = m.embeds ∧
      (m.subject (casesTitle lang s0)).attachments = m.attachments ∧
      (m.subject (casesTitle lang s0)).pgpType = m.pgpType := by
  intro casesTitle lang m s0 rest hsub
  refine ⟨?_, ?_, ?_, rfl, rfl, rfl, rfl, rfl⟩
  · rw [subcapHandle]
    simp only [hsub]
  · rw [Msg.subject, Msg.setGenHeader, Msg.getGenHeader]
    simp [getAssoc_upsert_self]
  · intro k hk
    rw [Msg.subject, Msg.setGenHeader, Msg.getGenHeader, Msg.getGenHeader]
    simp [getAssoc_upsert_ne "Subject" k _ hk]

/-- Witness for C7: a concrete two-valued subject header is replaced by
the cased first value. -/
theorem subcap_handle_titlecases_subject_witness :
    subcapHandle (fun lang s => lang ++ ":" ++ s) "en"
        { genHeader := [("Subject", ["hello world", "second"])], preformatted := [],
          parts := [], embeds := [], attachments := [], pgpType := PGPTypeM.noPGP } =
      some
        { genHeader := [("Subject", ["en:hello world"])], preformatted := [],
          parts := [], embeds := [], attachments := [], pgpType := PGPTypeM.noPGP } := by
  have h := (subcap_handle_titlecases_subject (fun lang s => lang ++ ":" ++ s) "en"
    { genHeader := [("Subject", ["hello world", "second"])], preformatted := [],
      parts := [], embeds := [], attachments := [], pgpType := PGPTypeM.noPGP }
    "hello world" ["second"] rfl).1
  rw [h]
  rfl

/-- Claim C8: the subject_capitalize `Handle` is only total on messages
carrying at least one `Subject` value: on an empty subject header list
the indexing of the first element is out of bounds and the embedded
handler returns `none` (the Go code panics). -/
theorem subcap_handle_empty_subject_none :
    ∀ (casesTitle : String → String → String) (lang : String) (m : Msg),
      m.getGenHeader "Subject" = [] →
      subcapHandle casesTitle lang m = none := by
  intro casesTitle lang m hsub
  rw [subcapHandle]
  simp only [hsub]

/-- Witness for C8: the empty message reaches the out-of-bounds branch. -/
theorem subcap_handle_empty_subject_none_witness :
    subcapHandle (fun _ s => s) "en"
        { genHeader := [], preformatted := [], parts := [], embeds := [],
          attachments := [], pgpType := PGPTypeM.noPGP } = none :=
  subcap_handle_empty_subject_none (fun _ s => s) "en"
    { genHeader := [], preformatted := [], parts := [], embeds := [],
      attachments := [], pgpType := PGPTypeM.noPGP } rfl

/-- Claim C5 (failing evaluation): the subject_capitalize `Handle` does
not return the input message on a message without a `Subject` header —
the unchecked `cs[0]` indexing makes the embedded handler return `none`
(the Go code panics on `mail.NewMsg()` as in its own
`TestMiddleware_HandleEmpty`), contradicting the claim that every
middleware's `Handle` returns the given message for every input. -/
theorem subcap_handle_not_total_on_all_messages :
    subcapHandle (fun _ s => s) "de"
        { genHeader := [("From", ["a@b.de"])], preformatted := [], parts := [],
          embeds := [], attachments := [], pgpType := PGPTypeM.noPGP } = none := by
  rfl

end GoMailMw
